import Mathlib

/-!
Shallow embedding of `bevy_metrics_dashboard`'s metrics registry
(`src/registry.rs`) and proofs of its specified properties.

The registry stores counters, gauges and histograms in three
identity-to-cell maps; cells are shared between the registry and the
handles issued to instrumentation sites.  We model each per-kind cell
store as a list indexed by cell id, so that "two handles address the same
underlying storage cell" is expressible as equality of cell ids.  Machine
`u64` values are `Nat` with explicit `% 2 ^ 64` where overflow matters;
histogram samples (`f64` in the source) are represented by their 64-bit
bit patterns, since no claim performs floating-point arithmetic on them.
-/

namespace BevyMetrics

/-- A single metric label: a key/value pair of strings (`metrics::Label`). -/
structure Label where
  key : String
  value : String
deriving DecidableEq

/-- Modelled from the spec: `metrics::Key` (from the external `metrics`
crate) holds a metric name and its ordered label sequence; it stores the
labels in the order given and derives equality structurally over that
order (no normalization of label order). -/
structure Key where
  name : String
  labels : List Label
deriving DecidableEq

/-- Source `metrics_util::MetricKind`: one of Counter, Gauge, Histogram. -/
inductive MetricKind where
  | counter
  | gauge
  | histogram
deriving DecidableEq

/-- Modelled from the spec: `metrics::Unit`, an enumerated physical unit
(e.g. bytes, seconds, count); only distinguishability matters here. -/
inductive Unit where
  | count
  | bytes
  | seconds
  | percent
deriving DecidableEq

/-- Source `MetricDescription`: optional unit plus a free-text description. -/
structure MetricDescription where
  unit : Option Unit
  text : String
deriving DecidableEq

/-- Source `MetricKey`: identifies some metric in the registry (key + kind). -/
structure MetricKey where
  key : Key
  kind : MetricKind
deriving DecidableEq

/-- Source `MetricKey::new`. -/
def MetricKey.new (key : Key) (kind : MetricKind) : MetricKey :=
  { key, kind }

/-- Source `DescriptionKey`: key used for storing metric descriptions
(name + kind only; `KeyName` is a string). -/
structure DescriptionKey where
  name : String
  kind : MetricKind
deriving DecidableEq

/-- Source `impl From<&MetricKey> for DescriptionKey`: keeps the key's name and
kind, dropping the labels. -/
def DescriptionKey.ofMetricKey (value : MetricKey) : DescriptionKey :=
  { name := value.key.name, kind := value.kind }

/-- First-match lookup in an association list; models lookup in the
hash maps used by the registry and the description store. -/
def lookupAssoc {α β : Type} [DecidableEq α] : List (α × β) → α → Option β
  | [], _ => none
  | (k, v) :: rest, a => if k = a then some v else lookupAssoc rest a

/-- The whole registry state of `MetricsRegistry` (`Inner`): the three
identity-to-cell maps of `Registry<metrics::Key, AtomicStorage>` (cells
held in per-kind stores indexed by cell id, mirroring the shared `Arc`
cells), plus the description map behind `Inner.descriptions`. -/
structure RegistryState where
  counterCells : List Nat
  counterMap : List (Key × Nat)
  gaugeCells : List Nat
  gaugeMap : List (Key × Nat)
  histogramCells : List (List Nat)
  histogramMap : List (Key × Nat)
  descriptions : List (DescriptionKey × MetricDescription)
deriving DecidableEq

/-- Source `MetricsRegistry::new`: an empty registry. -/
def RegistryState.new : RegistryState :=
  { counterCells := [], counterMap := [], gaugeCells := [], gaugeMap := []
  , histogramCells := [], histogramMap := [], descriptions := [] }

/-- Modelled from the spec: `Registry::get_or_create_counter` of the
external `metrics_util` crate, as delegated to by
`MetricsRegistry::get_or_create_counter`: returns the existing cell for
`key` if present, otherwise atomically inserts a newly constructed
zero-valued cell and returns it.  The returned cell id plays the role of
the shared `Arc<AtomicU64>` handle. -/
def get_or_create_counter (s : RegistryState) (key : Key) : Nat × RegistryState :=
  match lookupAssoc s.counterMap key with
  | some id => (id, s)
  | none =>
    let id := s.counterCells.length
    (id, { s with counterCells := s.counterCells ++ [0]
                , counterMap := s.counterMap ++ [(key, id)] })

/-- Modelled from the spec: `Registry::get_or_create_gauge`, symmetric to
the counter case (the gauge cell stores a 64-bit bit pattern). -/
def get_or_create_gauge (s : RegistryState) (key : Key) : Nat × RegistryState :=
  match lookupAssoc s.gaugeMap key with
  | some id => (id, s)
  | none =>
    let id := s.gaugeCells.length
    (id, { s with gaugeCells := s.gaugeCells ++ [0]
                , gaugeMap := s.gaugeMap ++ [(key, id)] })

/-- Modelled from the spec: `Registry::get_or_create_histogram`, symmetric,
with an `AtomicBucket` cell holding a buffer of samples (empty at creation). -/
def get_or_create_histogram (s : RegistryState) (key : Key) : Nat × RegistryState :=
  match lookupAssoc s.histogramMap key with
  | some id => (id, s)
  | none =>
    let id := s.histogramCells.length
    (id, { s with histogramCells := s.histogramCells ++ [[]]
                , histogramMap := s.histogramMap ++ [(key, id)] })

/-- Reading a counter cell through a handle (`AtomicU64::load`). -/
def read_counter (s : RegistryState) (id : Nat) : Nat :=
  s.counterCells.getD id 0

/-- Modelled from the spec: incrementing a counter through an issued
handle (`Counter::increment` on the shared `AtomicU64` performs an atomic
wrapping 64-bit add; the wrap-around is made explicit). -/
def counter_increment (s : RegistryState) (id : Nat) (amount : Nat) : RegistryState :=
  { s with counterCells :=
      s.counterCells.set id ((s.counterCells.getD id 0 + amount) % 2 ^ 64) }

/-- Reading a gauge cell through a handle (`AtomicU64::load` of the
stored 64-bit bit pattern). -/
def read_gauge (s : RegistryState) (id : Nat) : Nat :=
  s.gaugeCells.getD id 0

/-- Modelled from the spec: setting a gauge through an issued handle
(`Gauge::set` stores the measurement's 64-bit bit pattern atomically). -/
def gauge_set (s : RegistryState) (id : Nat) (value : Nat) : RegistryState :=
  { s with gaugeCells := s.gaugeCells.set id (value % 2 ^ 64) }

/-- Reading a histogram cell's buffered samples through a handle. -/
def read_histogram (s : RegistryState) (id : Nat) : List Nat :=
  s.histogramCells.getD id []

/-- Modelled from the spec: appending a sample to a histogram cell
(`AtomicBucket::push` via `Histogram::record`). -/
def histogram_record (s : RegistryState) (id : Nat) (sample : Nat) : RegistryState :=
  { s with histogramCells :=
      s.histogramCells.set id (s.histogramCells.getD id [] ++ [sample]) }

/-- Source `MetricsRegistry::get_description`: read-only lookup in the
description store. -/
def get_description (s : RegistryState) (key : DescriptionKey) : Option MetricDescription :=
  lookupAssoc s.descriptions key

/-- Source `MetricsRegistry::add_description_if_missing`:
`descriptions.entry(key).or_insert(description)` inserts only when no
entry for `key` exists; otherwise the existing entry is kept. -/
def add_description_if_missing (s : RegistryState) (key : DescriptionKey)
    (description : MetricDescription) : RegistryState :=
  match lookupAssoc s.descriptions key with
  | some _ => s
  | none => { s with descriptions := s.descriptions ++ [(key, description)] }

/-- Source `Recorder::describe_counter` for `MetricsRegistry`. -/
def describe_counter (s : RegistryState) (key_name : String) (unit : Option Unit)
    (description : String) : RegistryState :=
  add_description_if_missing s { name := key_name, kind := MetricKind.counter }
    { unit, text := description }

/-- Source `Recorder::describe_gauge` for `MetricsRegistry`. -/
def describe_gauge (s : RegistryState) (key_name : String) (unit : Option Unit)
    (description : String) : RegistryState :=
  add_description_if_missing s { name := key_name, kind := MetricKind.gauge }
    { unit, text := description }

/-- Source `Recorder::describe_histogram` for `MetricsRegistry`. -/
def describe_histogram (s : RegistryState) (key_name : String) (unit : Option Unit)
    (description : String) : RegistryState :=
  add_description_if_missing s { name := key_name, kind := MetricKind.histogram }
    { unit, text := description }

/-- Source `MetricsRegistry::clear_atomic_buckets`: `visit_histograms(|_, h| h.clear())`
discards every histogram cell's buffered samples in place. -/
def clear_atomic_buckets (s : RegistryState) : RegistryState :=
  { s with histogramCells := s.histogramCells.map (fun _ => ([] : List Nat)) }

/-- Greedy subsequence test: does the first character list occur, in
order but not necessarily contiguously, inside the second? -/
def isSubseq : List Char → List Char → Bool
  | [], _ => true
  | _ :: _, [] => false
  | a :: as, b :: bs => if a = b then isSubseq as bs else isSubseq (a :: as) bs

/-- Modelled from the spec: `SkimMatcherV2::fuzzy_match(choice, pattern)`
of the external `fuzzy-matcher` crate returns `Some(score)` exactly when
the pattern's characters appear as an ordered (not necessarily
contiguous) subsequence of the choice; this Boolean is `is_some()` of
that result.  In particular the empty pattern matches every choice. -/
def fuzzy_match_is_some (choice pattern : String) : Bool :=
  isSubseq pattern.data choice.data

/-- Source `SearchResult`: a metric key plus its optional description. -/
structure SearchResult where
  key : MetricKey
  description : Option MetricDescription
deriving DecidableEq

/-- Source `make_search_result`: joins a stored key with the description under
the `DescriptionKey` derived from it. -/
def make_search_result (kind : MetricKind) (key : Key)
    (descriptions : List (DescriptionKey × MetricDescription)) : SearchResult :=
  let mkey := MetricKey.new key kind
  let desc_key := DescriptionKey.ofMetricKey mkey
  { key := mkey, description := lookupAssoc descriptions desc_key }

/-- Source `MetricsRegistry::all_metrics`: a search result for every registered
metric, visiting counters, then gauges, then histograms. -/
def all_metrics (s : RegistryState) : List SearchResult :=
  (s.counterMap.map fun p => make_search_result MetricKind.counter p.1 s.descriptions)
    ++ (s.gaugeMap.map fun p => make_search_result MetricKind.gauge p.1 s.descriptions)
    ++ (s.histogramMap.map fun p => make_search_result MetricKind.histogram p.1 s.descriptions)

/-- Source `MetricsRegistry::fuzzy_search_by_name`: the same traversal as
`all_metrics`, keeping exactly the keys whose name fuzzy-matches `input`. -/
def fuzzy_search_by_name (s : RegistryState) (input : String) : List SearchResult :=
  ((s.counterMap.filter fun p => fuzzy_match_is_some p.1.name input).map
      fun p => make_search_result MetricKind.counter p.1 s.descriptions)
    ++ ((s.gaugeMap.filter fun p => fuzzy_match_is_some p.1.name input).map
      fun p => make_search_result MetricKind.gauge p.1 s.descriptions)
    ++ ((s.histogramMap.filter fun p => fuzzy_match_is_some p.1.name input).map
      fun p => make_search_result MetricKind.histogram p.1 s.descriptions)

/-- Modelled from the spec: `crate::metric_kind_str` (defined outside
`registry.rs` and absent from the provided sources) renders the kind word
used in titles, `<name> (<kind>)`. -/
def metric_kind_str : MetricKind → String
  | MetricKind.counter => "counter"
  | MetricKind.gauge => "gauge"
  | MetricKind.histogram => "histogram"

/-- Source `MetricKey::title`: the text used when displaying search results and
assigning a title to a plot. -/
def MetricKey.title (self : MetricKey) (display_path : Option String)
    (n_duplicates : Nat) : String :=
  let name := match display_path with
    | some path => path
    | none => self.key.name
  let kind := metric_kind_str self.kind
  if n_duplicates > 0 then s!"{name} ({kind}) {n_duplicates}"
  else s!"{name} ({kind})"

/-- The title format as the spec states it: `<name> (<kind>) <n>` when the
caller-supplied duplicate count is positive, `<name> (<kind>)` otherwise,
with `<name>` the caller-supplied display path when given and the key's
own name otherwise. -/
def MetricKey.title_spec (self : MetricKey) (display_path : Option String)
    (n_duplicates : Nat) : String :=
  let name := display_path.getD self.key.name
  if 0 < n_duplicates then
    name ++ " (" ++ metric_kind_str self.kind ++ ") " ++ toString n_duplicates
  else
    name ++ " (" ++ metric_kind_str self.kind ++ ")"

/-- One concurrent execution of counter increments: the interleaving of the
atomic adds is a sequence of `counter_increment` steps on one cell. -/
def run_increments (s : RegistryState) (id : Nat) (amounts : List Nat) : RegistryState :=
  amounts.foldl (fun st a => counter_increment st id a) s

/-! ### Helper lemmas about association-list lookup -/

theorem lookupAssoc_eq_none_iff {α β : Type} [DecidableEq α] (l : List (α × β)) (a : α) :
    lookupAssoc l a = none ↔ a ∉ l.map Prod.fst := by
  induction l with
  | nil => simp [lookupAssoc]
  | cons p rest ih =>
    obtain ⟨k, v⟩ := p
    by_cases h : k = a
    · subst h
      simp [lookupAssoc]
    · simp [lookupAssoc, h, ih, Ne.symm h]

theorem lookupAssoc_append_of_none {α β : Type} [DecidableEq α] {l₁ : List (α × β)} {a : α}
    (l₂ : List (α × β)) (h : lookupAssoc l₁ a = none) :
    lookupAssoc (l₁ ++ l₂) a = lookupAssoc l₂ a := by
  induction l₁ with
  | nil => simp
  | cons p rest ih =>
    obtain ⟨k, v⟩ := p
    by_cases hk : k = a
    · simp [lookupAssoc, hk] at h
    · simp only [lookupAssoc, if_neg hk] at h ⊢
      exact ih h

theorem lookupAssoc_snoc_self {α β : Type} [DecidableEq α] {l : List (α × β)} {a : α}
    (b : β) (h : lookupAssoc l a = none) :
    lookupAssoc (l ++ [(a, b)]) a = some b := by
  rw [lookupAssoc_append_of_none _ h]
  simp [lookupAssoc]

theorem mem_of_lookupAssoc_eq_some {α β : Type} [DecidableEq α] {l : List (α × β)} {a : α}
    {b : β} (h : lookupAssoc l a = some b) : (a, b) ∈ l := by
  induction l with
  | nil => simp [lookupAssoc] at h
  | cons p rest ih =>
    obtain ⟨k, v⟩ := p
    by_cases hk : k = a
    · subst hk
      simp [lookupAssoc] at h
      subst h
      exact List.mem_cons_self _ _
    · simp only [lookupAssoc, if_neg hk] at h
      exact List.mem_cons_of_mem _ (ih h)

theorem lookupAssoc_eq_some_of_mem_nodup {α β : Type} [DecidableEq α] {l : List (α × β)}
    {a : α} {b : β} (hmem : (a, b) ∈ l) (hnd : (l.map Prod.fst).Nodup) :
    lookupAssoc l a = some b := by
  induction l with
  | nil => simp at hmem
  | cons p rest ih =>
    obtain ⟨k, v⟩ := p
    simp only [List.map_cons, List.nodup_cons] at hnd
    rcases List.mem_cons.mp hmem with heq | hrest
    · obtain ⟨rfl, rfl⟩ := Prod.mk.injEq .. ▸ heq
      simp [lookupAssoc]
    · have hka : k ≠ a := by
        intro hk
        subst hk
        exact hnd.1 (List.mem_map.mpr ⟨(k, b), hrest, rfl⟩)
      simp only [lookupAssoc, if_neg hka]
      exact ih hrest hnd.2

theorem getD_set_self {α : Type} (l : List α) (i : Nat) (v d : α) (h : i < l.length) :
    (l.set i v).getD i d = v := by
  induction l generalizing i with
  | nil => simp at h
  | cons x xs ih =>
    cases i with
    | zero => simp [List.set, List.getD]
    | succ n =>
      simp only [List.set, List.getD_cons_succ]
      exact ih n (by simpa using h)

theorem lookupAssoc_append_of_some {α β : Type} [DecidableEq α] {l₁ : List (α × β)} {a : α}
    {b : β} (l₂ : List (α × β)) (h : lookupAssoc l₁ a = some b) :
    lookupAssoc (l₁ ++ l₂) a = some b := by
  induction l₁ with
  | nil => simp [lookupAssoc] at h
  | cons p rest ih =>
    obtain ⟨k, v⟩ := p
    by_cases hk : k = a
    · simp only [lookupAssoc, if_pos hk] at h ⊢
      exact h
    · simp only [lookupAssoc, if_neg hk] at h ⊢
      exact ih h

/-! ### Helper lemmas about get-or-create -/

theorem goc_counter_of_none {s : RegistryState} {k : Key}
    (h : lookupAssoc s.counterMap k = none) :
    get_or_create_counter s k
      = (s.counterCells.length,
          { s with counterCells := s.counterCells ++ [0]
                 , counterMap := s.counterMap ++ [(k, s.counterCells.length)] }) := by
  unfold get_or_create_counter
  rw [h]

theorem goc_counter_of_some {s : RegistryState} {k : Key} {id : Nat}
    (h : lookupAssoc s.counterMap k = some id) :
    get_or_create_counter s k = (id, s) := by
  unfold get_or_create_counter
  rw [h]

theorem goc_counter_lookup (s : RegistryState) (k : Key) :
    lookupAssoc (get_or_create_counter s k).2.counterMap k
      = some (get_or_create_counter s k).1 := by
  cases h : lookupAssoc s.counterMap k with
  | some id => simp [get_or_create_counter, h]
  | none =>
    simp only [get_or_create_counter, h]
    exact lookupAssoc_snoc_self _ h

theorem goc_counter_id_lt (s : RegistryState) (k : Key)
    (wf : ∀ p ∈ s.counterMap, p.2 < s.counterCells.length) :
    (get_or_create_counter s k).1 < (get_or_create_counter s k).2.counterCells.length := by
  cases h : lookupAssoc s.counterMap k with
  | some id =>
    simp only [get_or_create_counter, h]
    exact wf _ (mem_of_lookupAssoc_eq_some h)
  | none => simp [get_or_create_counter, h]

theorem goc_counter_nodup (s : RegistryState) (k : Key)
    (nd : (s.counterMap.map Prod.fst).Nodup) :
    ((get_or_create_counter s k).2.counterMap.map Prod.fst).Nodup := by
  cases h : lookupAssoc s.counterMap k with
  | some id => simpa [get_or_create_counter, h] using nd
  | none =>
    simp only [get_or_create_counter, h, List.map_append, List.map_cons, List.map_nil]
    rw [List.nodup_append]
    refine ⟨nd, List.nodup_singleton _, ?_⟩
    intro a ha hb
    rw [List.mem_singleton] at hb
    subst hb
    exact (lookupAssoc_eq_none_iff _ _).mp h ha

theorem goc_gauge_of_some {s : RegistryState} {k : Key} {id : Nat}
    (h : lookupAssoc s.gaugeMap k = some id) :
    get_or_create_gauge s k = (id, s) := by
  unfold get_or_create_gauge
  rw [h]

theorem goc_gauge_lookup (s : RegistryState) (k : Key) :
    lookupAssoc (get_or_create_gauge s k).2.gaugeMap k
      = some (get_or_create_gauge s k).1 := by
  cases h : lookupAssoc s.gaugeMap k with
  | some id => simp [get_or_create_gauge, h]
  | none =>
    simp only [get_or_create_gauge, h]
    exact lookupAssoc_snoc_self _ h

theorem goc_gauge_id_lt (s : RegistryState) (k : Key)
    (wf : ∀ p ∈ s.gaugeMap, p.2 < s.gaugeCells.length) :
    (get_or_create_gauge s k).1 < (get_or_create_gauge s k).2.gaugeCells.length := by
  cases h : lookupAssoc s.gaugeMap k with
  | some id =>
    simp only [get_or_create_gauge, h]
    exact wf _ (mem_of_lookupAssoc_eq_some h)
  | none => simp [get_or_create_gauge, h]

theorem goc_gauge_nodup (s : RegistryState) (k : Key)
    (nd : (s.gaugeMap.map Prod.fst).Nodup) :
    ((get_or_create_gauge s k).2.gaugeMap.map Prod.fst).Nodup := by
  cases h : lookupAssoc s.gaugeMap k with
  | some id => simpa [get_or_create_gauge, h] using nd
  | none =>
    simp only [get_or_create_gauge, h, List.map_append, List.map_cons, List.map_nil]
    rw [List.nodup_append]
    refine ⟨nd, List.nodup_singleton _, ?_⟩
    intro a ha hb
    rw [List.mem_singleton] at hb
    subst hb
    exact (lookupAssoc_eq_none_iff _ _).mp h ha

theorem goc_histogram_of_some {s : RegistryState} {k : Key} {id : Nat}
    (h : lookupAssoc s.histogramMap k = some id) :
    get_or_create_histogram s k = (id, s) := by
  unfold get_or_create_histogram
  rw [h]

theorem goc_histogram_lookup (s : RegistryState) (k : Key) :
    lookupAssoc (get_or_create_histogram s k).2.histogramMap k
      = some (get_or_create_histogram s k).1 := by
  cases h : lookupAssoc s.histogramMap k with
  | some id => simp [get_or_create_histogram, h]
  | none =>
    simp only [get_or_create_histogram, h]
    exact lookupAssoc_snoc_self _ h

theorem goc_histogram_id_lt (s : RegistryState) (k : Key)
    (wf : ∀ p ∈ s.histogramMap, p.2 < s.histogramCells.length) :
    (get_or_create_histogram s k).1
      < (get_or_create_histogram s k).2.histogramCells.length := by
  cases h : lookupAssoc s.histogramMap k with
  | some id =>
    simp only [get_or_create_histogram, h]
    exact wf _ (mem_of_lookupAssoc_eq_some h)
  | none => simp [get_or_create_histogram, h]

theorem goc_histogram_nodup (s : RegistryState) (k : Key)
    (nd : (s.histogramMap.map Prod.fst).Nodup) :
    ((get_or_create_histogram s k).2.histogramMap.map Prod.fst).Nodup := by
  cases h : lookupAssoc s.histogramMap k with
  | some id => simpa [get_or_create_histogram, h] using nd
  | none =>
    simp only [get_or_create_histogram, h, List.map_append, List.map_cons, List.map_nil]
    rw [List.nodup_append]
    refine ⟨nd, List.nodup_singleton _, ?_⟩
    intro a ha hb
    rw [List.mem_singleton] at hb
    subst hb
    exact (lookupAssoc_eq_none_iff _ _).mp h ha

theorem add_description_noop {s : RegistryState} {k : DescriptionKey}
    {d : MetricDescription} (d' : MetricDescription)
    (h : get_description s k = some d) :
    add_description_if_missing s k d' = s := by
  unfold add_description_if_missing
  rw [show lookupAssoc s.descriptions k = some d from h]

theorem add_description_inserts {s : RegistryState} {k : DescriptionKey}
    (d : MetricDescription) (h : get_description s k = none) :
    (add_description_if_missing s k d).descriptions = s.descriptions ++ [(k, d)] := by
  unfold add_description_if_missing
  rw [show lookupAssoc s.descriptions k = none from h]

/-! ### Claim theorems -/

/-- C1: get-or-create is idempotent for all three kinds: a second call
with the same key returns the same handle and leaves the registry
unchanged, at most one map entry exists per identity (no-duplicate-keys is
preserved), and a mutation performed through the handle returned by the
second call is observable through the handle returned by the first call,
because both address the same underlying cell. -/
theorem get_or_create_idempotent (s : RegistryState) (k : Key)
    (wfc : ∀ p ∈ s.counterMap, p.2 < s.counterCells.length)
    (wfg : ∀ p ∈ s.gaugeMap, p.2 < s.gaugeCells.length)
    (wfh : ∀ p ∈ s.histogramMap, p.2 < s.histogramCells.length)
    (ndc : (s.counterMap.map Prod.fst).Nodup)
    (ndg : (s.gaugeMap.map Prod.fst).Nodup)
    (ndh : (s.histogramMap.map Prod.fst).Nodup) :
    get_or_create_counter (get_or_create_counter s k).2 k = get_or_create_counter s k
    ∧ get_or_create_gauge (get_or_create_gauge s k).2 k = get_or_create_gauge s k
    ∧ get_or_create_histogram (get_or_create_histogram s k).2 k
        = get_or_create_histogram s k
    ∧ ((get_or_create_counter s k).2.counterMap.map Prod.fst).Nodup
    ∧ ((get_or_create_gauge s k).2.gaugeMap.map Prod.fst).Nodup
    ∧ ((get_or_create_histogram s k).2.histogramMap.map Prod.fst).Nodup
    ∧ (∀ a : Nat,
        read_counter
          (counter_increment (get_or_create_counter s k).2
            (get_or_create_counter (get_or_create_counter s k).2 k).1 a)
          (get_or_create_counter s k).1
        = (read_counter (get_or_create_counter s k).2 (get_or_create_counter s k).1 + a)
            % 2 ^ 64)
    ∧ (∀ v : Nat,
        read_gauge
          (gauge_set (get_or_create_gauge s k).2
            (get_or_create_gauge (get_or_create_gauge s k).2 k).1 v)
          (get_or_create_gauge s k).1
        = v % 2 ^ 64)
    ∧ (∀ sample : Nat,
        read_histogram
          (histogram_record (get_or_create_histogram s k).2
            (get_or_create_histogram (get_or_create_histogram s k).2 k).1 sample)
          (get_or_create_histogram s k).1
        = read_histogram (get_or_create_histogram s k).2 (get_or_create_histogram s k).1
            ++ [sample]) := by
  have hc := goc_counter_of_some (goc_counter_lookup s k)
  have hg := goc_gauge_of_some (goc_gauge_lookup s k)
  have hh := goc_histogram_of_some (goc_histogram_lookup s k)
  refine ⟨hc, hg, hh, goc_counter_nodup s k ndc, goc_gauge_nodup s k ndg,
    goc_histogram_nodup s k ndh, ?_, ?_, ?_⟩
  · intro a
    rw [hc]
    exact getD_set_self _ _ _ _ (goc_counter_id_lt s k wfc)
  · intro v
    rw [hg]
    exact getD_set_self _ _ _ _ (goc_gauge_id_lt s k wfg)
  · intro sample
    rw [hh]
    exact getD_set_self _ _ _ _ (goc_histogram_id_lt s k wfh)

/-- Witness for C1 at a concrete input: on the empty registry, a second
get-or-create for the same counter key returns the same handle and state. -/
theorem get_or_create_idempotent_witness :
    get_or_create_counter
        (get_or_create_counter RegistryState.new { name := "frames", labels := [] }).2
        { name := "frames", labels := [] }
      = get_or_create_counter RegistryState.new { name := "frames", labels := [] } :=
  (get_or_create_idempotent RegistryState.new { name := "frames", labels := [] }
    (by decide) (by decide) (by decide) (by decide) (by decide) (by decide)).1

/-- C2: for a description identity with no stored description, a first
describe call with `(u1, t1)` followed by a second describe call for the
same identity with `(u2, t2)` leaves the stored description `(u1, t1)`:
the later write is silently ignored (the registry state is entirely
unchanged by it, so it is not an error), and `get_description` afterwards
returns `(u1, t1)`. -/
theorem describe_first_writer_wins (s : RegistryState) (k : DescriptionKey)
    (u1 u2 : Option Unit) (t1 t2 : String)
    (h : get_description s k = none) :
    add_description_if_missing (add_description_if_missing s k ⟨u1, t1⟩) k ⟨u2, t2⟩
        = add_description_if_missing s k ⟨u1, t1⟩
    ∧ get_description
        (add_description_if_missing (add_description_if_missing s k ⟨u1, t1⟩) k ⟨u2, t2⟩) k
        = some ⟨u1, t1⟩ := by
  have h1 : get_description (add_description_if_missing s k ⟨u1, t1⟩) k = some ⟨u1, t1⟩ := by
    show lookupAssoc _ _ = _
    rw [add_description_inserts _ h]
    exact lookupAssoc_snoc_self _ h
  have h2 := add_description_noop (s := add_description_if_missing s k ⟨u1, t1⟩)
    (⟨u2, t2⟩ : MetricDescription) h1
  refine ⟨h2, ?_⟩
  rw [h2]
  exact h1

/-- Witness for C2 at a concrete input: describing `requests_total`
twice stores the first description. -/
theorem describe_first_writer_wins_witness :
    get_description
      (add_description_if_missing
        (add_description_if_missing RegistryState.new
          ⟨"requests_total", MetricKind.counter⟩
          ⟨some Unit.count, "Total HTTP requests"⟩)
        ⟨"requests_total", MetricKind.counter⟩ ⟨none, "overwritten?"⟩)
      ⟨"requests_total", MetricKind.counter⟩
    = some ⟨some Unit.count, "Total HTTP requests"⟩ :=
  (describe_first_writer_wins RegistryState.new
    ⟨"requests_total", MetricKind.counter⟩
    (some Unit.count) none "Total HTTP requests" "overwritten?" rfl).2

/-- C3: searching with the empty query returns exactly the results of
`all_metrics`: the empty query matches every registered identity of every
kind. -/
theorem fuzzy_search_empty_matches_all (s : RegistryState) :
    fuzzy_search_by_name s "" = all_metrics s := by
  have hfil : ∀ (l : List (Key × Nat)),
      l.filter (fun p => fuzzy_match_is_some p.1.name "") = l := by
    intro l
    apply List.filter_eq_self.mpr
    intro p _
    show isSubseq "".data p.1.name.data = true
    rw [show "".data = [] from by decide]
    cases p.1.name.data <;> simp [isSubseq]
  simp only [fuzzy_search_by_name, all_metrics, hfil]

/-- C4: `clear_atomic_buckets` empties every histogram cell's sample
buffer in place but removes nothing: all three identity maps, the other
cell stores and the descriptions are untouched, `all_metrics` reports the
same results as before, and every histogram cell reads as having zero
buffered samples. -/
theorem clear_atomic_buckets_frame (s : RegistryState) :
    all_metrics (clear_atomic_buckets s) = all_metrics s
    ∧ (clear_atomic_buckets s).counterMap = s.counterMap
    ∧ (clear_atomic_buckets s).gaugeMap = s.gaugeMap
    ∧ (clear_atomic_buckets s).histogramMap = s.histogramMap
    ∧ (clear_atomic_buckets s).counterCells = s.counterCells
    ∧ (clear_atomic_buckets s).gaugeCells = s.gaugeCells
    ∧ (clear_atomic_buckets s).descriptions = s.descriptions
    ∧ ∀ id, read_histogram (clear_atomic_buckets s) id = [] := by
  refine ⟨rfl, rfl, rfl, rfl, rfl, rfl, rfl, ?_⟩
  intro id
  show (s.histogramCells.map fun _ => ([] : List Nat)).getD id [] = []
  induction s.histogramCells generalizing id with
  | nil => cases id <;> rfl
  | cons x xs ih =>
    cases id with
    | zero => rfl
    | succ n => exact ih n

/-- C6: the description identity derived from a metric key keeps only the
name and the kind, dropping the labels, so all labeled variants of one
name/kind share one description: after `describe_counter(name, u, t)` on a
registry with no prior description for `(name, Counter)`, looking up the
`DescriptionKey` derived from any labeled variant returns that
description. -/
theorem description_shared_across_label_variants
    (s : RegistryState) (name : String) (u : Option Unit) (t : String)
    (labels1 labels2 : List Label)
    (h : get_description s { name := name, kind := MetricKind.counter } = none) :
    DescriptionKey.ofMetricKey
        (MetricKey.new { name := name, labels := labels1 } MetricKind.counter)
      = DescriptionKey.ofMetricKey
        (MetricKey.new { name := name, labels := labels2 } MetricKind.counter)
    ∧ get_description (describe_counter s name u t)
        (DescriptionKey.ofMetricKey
          (MetricKey.new { name := name, labels := labels1 } MetricKind.counter))
      = some { unit := u, text := t } := by
  refine ⟨rfl, ?_⟩
  show lookupAssoc (add_description_if_missing s _ _).descriptions _ = _
  rw [add_description_inserts _ h]
  exact lookupAssoc_snoc_self _ h

/-- Witness for C6: two differently-labeled variants of `requests_total`
share the description recorded by `describe_counter`. -/
theorem description_shared_across_label_variants_witness :
    get_description
      (describe_counter RegistryState.new "requests_total"
        (some Unit.count) "Total HTTP requests")
      (DescriptionKey.ofMetricKey
        (MetricKey.new
          { name := "requests_total", labels := [{ key := "route", value := "/a" }] }
          MetricKind.counter))
    = some { unit := some Unit.count, text := "Total HTTP requests" } :=
  (description_shared_across_label_variants RegistryState.new "requests_total"
    (some Unit.count) "Total HTTP requests"
    [{ key := "route", value := "/a" }] [{ key := "route", value := "/b" }] rfl).2

/-- C10: metric identity is label-order-sensitive: the key encoding keeps
labels in the order given and compares them structurally, so two
get-or-create calls with the same name and the same label pairs in
different orders (hence structurally different keys) create and address
two distinct storage cells, and both identities end up registered. -/
theorem key_identity_label_order_sensitive (s : RegistryState) (k1 k2 : Key)
    (_hname : k1.name = k2.name)
    (_hperm : k1.labels.Perm k2.labels)
    (hlab : k1.labels ≠ k2.labels)
    (h1 : lookupAssoc s.counterMap k1 = none)
    (h2 : lookupAssoc s.counterMap k2 = none) :
    (get_or_create_counter (get_or_create_counter s k1).2 k2).1
        ≠ (get_or_create_counter s k1).1
    ∧ lookupAssoc (get_or_create_counter (get_or_create_counter s k1).2 k2).2.counterMap k1
        = some (get_or_create_counter s k1).1
    ∧ lookupAssoc (get_or_create_counter (get_or_create_counter s k1).2 k2).2.counterMap k2
        = some (get_or_create_counter (get_or_create_counter s k1).2 k2).1 := by
  have hne : k1 ≠ k2 := fun he => hlab (congrArg Key.labels he)
  have h2' : lookupAssoc (s.counterMap ++ [(k1, s.counterCells.length)]) k2 = none := by
    rw [lookupAssoc_append_of_none _ h2]
    simp [lookupAssoc, hne]
  rw [goc_counter_of_none h1, goc_counter_of_none h2']
  refine ⟨?_, ?_, ?_⟩
  · simp
  · exact lookupAssoc_append_of_some _ (lookupAssoc_snoc_self _ h1)
  · exact lookupAssoc_snoc_self _ h2'

/-- Witness for C10: registering `requests_total` with the same two labels
in the two possible orders yields two different cells on the empty
registry. -/
theorem key_identity_label_order_sensitive_witness :
    (get_or_create_counter
        (get_or_create_counter RegistryState.new
          { name := "requests_total"
          , labels := [{ key := "route", value := "/a" }, { key := "host", value := "h1" }] }).2
        { name := "requests_total"
        , labels := [{ key := "host", value := "h1" }, { key := "route", value := "/a" }] }).1
      ≠ (get_or_create_counter RegistryState.new
          { name := "requests_total"
          , labels := [{ key := "route", value := "/a" }, { key := "host", value := "h1" }] }).1 :=
  (key_identity_label_order_sensitive RegistryState.new
    { name := "requests_total"
    , labels := [{ key := "route", value := "/a" }, { key := "host", value := "h1" }] }
    { name := "requests_total"
    , labels := [{ key := "host", value := "h1" }, { key := "route", value := "/a" }] }
    rfl (by decide) (by decide) rfl rfl).1

theorem isSubseq_iff_sublist (a b : List Char) : isSubseq a b = true ↔ List.Sublist a b := by
  induction b generalizing a with
  | nil =>
    cases a with
    | nil => simp [isSubseq]
    | cons x xs => simp [isSubseq]
  | cons c cs ih =>
    cases a with
    | nil =>
      simp [isSubseq, List.nil_sublist]
    | cons x xs =>
      simp only [isSubseq]
      by_cases hxc : x = c
      · subst hxc
        rw [if_pos rfl, ih]
        exact ⟨fun h => h.cons₂ x, fun h => List.cons_sublist_cons.mp h⟩
      · rw [if_neg hxc, ih]
        constructor
        · exact fun h => h.cons c
        · intro h
          cases h with
          | cons _ h => exact h
          | cons₂ _ h => exact absurd rfl hxc

theorem mem_filter_segment (l : List (Key × Nat)) (kind : MetricKind)
    (descs : List (DescriptionKey × MetricDescription)) (q : String) (r : SearchResult) :
    (r ∈ (l.filter fun p => fuzzy_match_is_some p.1.name q).map
        fun p => make_search_result kind p.1 descs)
    ↔ (r ∈ l.map fun p => make_search_result kind p.1 descs)
        ∧ fuzzy_match_is_some r.key.key.name q = true := by
  simp only [List.mem_map, List.mem_filter]
  constructor
  · rintro ⟨p, ⟨hp, hm⟩, rfl⟩
    exact ⟨⟨p, hp, rfl⟩, hm⟩
  · rintro ⟨⟨p, hp, rfl⟩, hm⟩
    exact ⟨p, ⟨hp, hm⟩, rfl⟩

/-- C5: `fuzzy_search_by_name` is a pure filter over the registered
identities: a result is returned for query `q` exactly when it is one of
`all_metrics`'s results and the query's characters occur as an ordered
subsequence of the metric name (no ranking, no truncation); in particular
any result whose name contains `q` as a contiguous substring is included.
Concretely, the pattern `reqtot` matches the name `requests_total` while
`xyz123` does not. -/
theorem fuzzy_search_is_subsequence_filter (s : RegistryState) (q : String) :
    (∀ r, r ∈ fuzzy_search_by_name s q ↔
        r ∈ all_metrics s ∧ fuzzy_match_is_some r.key.key.name q = true)
    ∧ (∀ r, r ∈ all_metrics s → List.IsInfix q.data r.key.key.name.data →
        r ∈ fuzzy_search_by_name s q)
    ∧ fuzzy_match_is_some "requests_total" "reqtot" = true
    ∧ fuzzy_match_is_some "requests_total" "xyz123" = false := by
  have hmem : ∀ r, r ∈ fuzzy_search_by_name s q ↔
      r ∈ all_metrics s ∧ fuzzy_match_is_some r.key.key.name q = true := by
    intro r
    simp only [fuzzy_search_by_name, all_metrics, List.mem_append, mem_filter_segment]
    tauto
  refine ⟨hmem, ?_, by decide, by decide⟩
  intro r hr hinf
  refine (hmem r).mpr ⟨hr, ?_⟩
  show isSubseq q.data r.key.key.name.data = true
  exact (isSubseq_iff_sublist _ _).mpr hinf.sublist

/-- Witness for C5: on a registry holding the counter `requests_total`,
searching for the non-contiguous subsequence `reqtot` returns that
counter's result. -/
theorem fuzzy_search_is_subsequence_filter_witness :
    make_search_result MetricKind.counter { name := "requests_total", labels := [] } []
      ∈ fuzzy_search_by_name
          { counterCells := [0]
          , counterMap := [({ name := "requests_total", labels := [] }, 0)]
          , gaugeCells := [], gaugeMap := []
          , histogramCells := [], histogramMap := []
          , descriptions := [] }
          "reqtot" :=
  ((fuzzy_search_is_subsequence_filter
      { counterCells := [0]
      , counterMap := [({ name := "requests_total", labels := [] }, 0)]
      , gaugeCells := [], gaugeMap := []
      , histogramCells := [], histogramMap := []
      , descriptions := [] }
      "reqtot").1 _).mpr ⟨by decide, by decide⟩

theorem run_increments_read (id : Nat) (l : List Nat) (s : RegistryState)
    (hid : id < s.counterCells.length) (hlt : read_counter s id < 2 ^ 64) :
    read_counter (run_increments s id l) id = (read_counter s id + l.sum) % 2 ^ 64 := by
  induction l generalizing s with
  | nil =>
    show read_counter s id = (read_counter s id + ([] : List Nat).sum) % 2 ^ 64
    rw [List.sum_nil, Nat.add_zero, Nat.mod_eq_of_lt hlt]
  | cons a l ih =>
    have hid' : id < (counter_increment s id a).counterCells.length := by
      show id < (s.counterCells.set id _).length
      rw [List.length_set]
      exact hid
    have hread : read_counter (counter_increment s id a) id
        = (read_counter s id + a) % 2 ^ 64 := getD_set_self _ _ _ _ hid
    have hlt' : read_counter (counter_increment s id a) id < 2 ^ 64 := by
      rw [hread]
      exact Nat.mod_lt _ (Nat.pow_pos (by norm_num))
    have hrec := ih (counter_increment s id a) hid' hlt'
    show read_counter (run_increments (counter_increment s id a) id l) id = _
    rw [hrec, hread, Nat.mod_add_mod, List.sum_cons, Nat.add_assoc]

/-- C7: an N-way concurrent execution of counter increments on one cell is
any interleaving of the atomic adds, i.e. the adds applied in some
permutation of the amounts; starting from 0 the final read equals the sum
of the amounts (as a wrapping 64-bit value, so exactly the sum whenever
the sum fits in a `u64`), regardless of the interleaving. -/
theorem concurrent_counter_increments (s : RegistryState) (id : Nat)
    (amounts interleaving : List Nat)
    (hid : id < s.counterCells.length)
    (h0 : read_counter s id = 0)
    (hperm : interleaving.Perm amounts) :
    read_counter (run_increments s id interleaving) id = amounts.sum % 2 ^ 64
    ∧ (amounts.sum < 2 ^ 64 →
        read_counter (run_increments s id interleaving) id = amounts.sum) := by
  have h := run_increments_read id interleaving s hid
    (by rw [h0]; exact Nat.pow_pos (by norm_num))
  rw [h0, Nat.zero_add, hperm.sum_eq] at h
  exact ⟨h, fun hlt => by rw [h, Nat.mod_eq_of_lt hlt]⟩

/-- Witness for C7: on a registry with one zeroed counter cell, running
the increments 5 and 3 in the opposite order still reads back 8. -/
theorem concurrent_counter_increments_witness :
    read_counter
      (run_increments
        { counterCells := [0]
        , counterMap := [({ name := "requests_total", labels := [] }, 0)]
        , gaugeCells := [], gaugeMap := []
        , histogramCells := [], histogramMap := []
        , descriptions := [] }
        0 [3, 5])
      0 = 8 :=
  (concurrent_counter_increments
    { counterCells := [0]
    , counterMap := [({ name := "requests_total", labels := [] }, 0)]
    , gaugeCells := [], gaugeMap := []
    , histogramCells := [], histogramMap := []
    , descriptions := [] }
    0 [5, 3] [3, 5] (by decide) rfl (by decide)).2 (by norm_num)

/-- C8: `MetricKey::title` renders `<name> (<kind>) <n>` when the
caller-supplied duplicate count is positive and `<name> (<kind>)`
otherwise, where `<name>` is the caller-supplied display path when one is
given and the key's own name otherwise. -/
theorem title_matches_spec (mk : MetricKey) (display_path : Option String)
    (n_duplicates : Nat) :
    mk.title display_path n_duplicates = mk.title_spec display_path n_duplicates := by
  cases display_path <;>
    simp [MetricKey.title, MetricKey.title_spec, toString,
      String.append_empty, String.empty_append, String.append_assoc]

/-- C9: no lookup operation fails: `get_description` returns `none` for an
unknown description key and the stored description for a known one, and
`fuzzy_search_by_name` returns the empty collection when no registered
name matches the query — never an error. -/
theorem lookups_never_fail (s : RegistryState) (k : DescriptionKey)
    (d : MetricDescription) (q : String) :
    (k ∉ s.descriptions.map Prod.fst → get_description s k = none)
    ∧ ((k, d) ∈ s.descriptions → (s.descriptions.map Prod.fst).Nodup →
        get_description s k = some d)
    ∧ ((∀ r ∈ all_metrics s, fuzzy_match_is_some r.key.key.name q = false) →
        fuzzy_search_by_name s q = []) := by
  refine ⟨fun h => (lookupAssoc_eq_none_iff _ _).mpr h,
    fun hmem hnd => lookupAssoc_eq_some_of_mem_nodup hmem hnd, ?_⟩
  intro hall
  have hc : s.counterMap.filter (fun p => fuzzy_match_is_some p.1.name q) = [] := by
    apply List.filter_eq_nil_iff.mpr
    intro p hp
    have hmem : make_search_result MetricKind.counter p.1 s.descriptions ∈ all_metrics s := by
      simp only [all_metrics, List.mem_append, List.mem_map]
      exact Or.inl (Or.inl ⟨p, hp, rfl⟩)
    have hfalse : fuzzy_match_is_some p.1.name q = false := hall _ hmem
    simp [hfalse]
  have hg : s.gaugeMap.filter (fun p => fuzzy_match_is_some p.1.name q) = [] := by
    apply List.filter_eq_nil_iff.mpr
    intro p hp
    have hmem : make_search_result MetricKind.gauge p.1 s.descriptions ∈ all_metrics s := by
      simp only [all_metrics, List.mem_append, List.mem_map]
      exact Or.inl (Or.inr ⟨p, hp, rfl⟩)
    have hfalse : fuzzy_match_is_some p.1.name q = false := hall _ hmem
    simp [hfalse]
  have hh : s.histogramMap.filter (fun p => fuzzy_match_is_some p.1.name q) = [] := by
    apply List.filter_eq_nil_iff.mpr
    intro p hp
    have hmem : make_search_result MetricKind.histogram p.1 s.descriptions
        ∈ all_metrics s := by
      simp only [all_metrics, List.mem_append, List.mem_map]
      exact Or.inr ⟨p, hp, rfl⟩
    have hfalse : fuzzy_match_is_some p.1.name q = false := hall _ hmem
    simp [hfalse]
  show (s.counterMap.filter _).map _ ++ (s.gaugeMap.filter _).map _
      ++ (s.histogramMap.filter _).map _ = []
  rw [hc, hg, hh]
  rfl

/-- Witness for C9: on a registry with one counter and one description,
an absent key yields `none`, the present key yields its description, and a
query matching nothing yields the empty result list. -/
theorem lookups_never_fail_witness :
    get_description
        { counterCells := [0]
        , counterMap := [({ name := "requests_total", labels := [] }, 0)]
        , gaugeCells := [], gaugeMap := []
        , histogramCells := [], histogramMap := []
        , descriptions := [({ name := "requests_total", kind := MetricKind.counter }
                           , { unit := some Unit.count, text := "Total" })] }
        { name := "absent", kind := MetricKind.gauge } = none
    ∧ get_description
        { counterCells := [0]
        , counterMap := [({ name := "requests_total", labels := [] }, 0)]
        , gaugeCells := [], gaugeMap := []
        , histogramCells := [], histogramMap := []
        , descriptions := [({ name := "requests_total", kind := MetricKind.counter }
                           , { unit := some Unit.count, text := "Total" })] }
        { name := "requests_total", kind := MetricKind.counter }
        = some { unit := some Unit.count, text := "Total" }
    ∧ fuzzy_search_by_name
        { counterCells := [0]
        , counterMap := [({ name := "requests_total", labels := [] }, 0)]
        , gaugeCells := [], gaugeMap := []
        , histogramCells := [], histogramMap := []
        , descriptions := [({ name := "requests_total", kind := MetricKind.counter }
                           , { unit := some Unit.count, text := "Total" })] }
        "xyz123" = [] :=
  ⟨(lookups_never_fail _ { name := "absent", kind := MetricKind.gauge }
      { unit := some Unit.count, text := "Total" } "xyz123").1 (by decide),
   (lookups_never_fail _ { name := "requests_total", kind := MetricKind.counter }
      { unit := some Unit.count, text := "Total" } "xyz123").2.1 (by decide) (by decide),
   (lookups_never_fail _ { name := "absent", kind := MetricKind.gauge }
      { unit := some Unit.count, text := "Total" } "xyz123").2.2 (by decide)⟩

end BevyMetrics
